import Mathlib

/-!
# Verification of the rusty-pin synchronization/caching/search core

Shallow embedding of the rusty-pin sources (`src/lib.rs`,
`src/pinboard/mod.rs`, `src/pinboard/api.rs`) together with theorems
settling the specification claims about the API result normalization,
tag-frequency decoding, the snapshot store, cache loading, full
synchronization, and exact/fuzzy search.

Modelling conventions:
- Rust `String`/`&str` values are Lean `String`s; `str::contains` is
  substring containment on the underlying character list.
- Rust `str::to_lowercase` is modelled on the ASCII range (the claims
  only exercise ASCII case folding).
- `DateTime<Utc>` timestamps are opaque `Nat` values.
- Fallible Rust functions returning `Result<T, E>` become
  `Except String T` (error payloads that the claims never inspect are
  fixed descriptive strings).
- File-system state and remote responses are passed explicitly.
-/

deriving instance DecidableEq for Except

namespace RustyPin

/-- Rust `str::contains`: `q` occurs as a contiguous substring of `hay`
(the empty pattern matches everything, as in Rust). -/
def containsSub (hay q : String) : Bool :=
  decide (q.data <:+: hay.data)

/-- ASCII lowercasing of one character: models what Rust
`str::to_lowercase` does on the ASCII inputs the claims exercise. -/
def lowerChar (c : Char) : Char :=
  if 65 ≤ c.toNat ∧ c.toNat ≤ 90 then Char.ofNat (c.toNat + 32) else c

/-- `str::to_lowercase`, restricted to the ASCII model of `lowerChar`. -/
def lowerStr (s : String) : String :=
  ⟨s.data.map lowerChar⟩

/-- The bookmark record of `src/lib.rs` (`struct Pin`).  Field names and
order follow the source; `url` is the already-parsed URL rendered as a
string, `time` is an opaque timestamp. -/
structure Pin where
  url : String
  title : String
  tags : String
  shared : String
  toread : String
  extended : Option String
  time : Nat
  meta : Option String
  hash : Option String
  tag_list : List String
deriving Repr, DecidableEq

/-- `Pin::new` from `src/lib.rs`: builds a pin from a url, title, tag
list, privacy flag, read flag and optional description (`now` stands for
the `Utc::now()` call).  Note that the source initializes the `tags`
text with `String::new()` while putting the argument into `tag_list`. -/
def Pin.new (url title : String) (tags : List String) (priv_ read : Bool)
    (desc : Option String) (now : Nat) : Pin :=
  { url := url
    title := title
    tags := ""
    shared := if priv_ then "no" else "yes"
    toread := if read then "yes" else "no"
    extended := desc
    time := now
    meta := none
    hash := none
    tag_list := tags }

/-- `Pin::contains` from `src/lib.rs`: the raw url, title or tag text
contains `q` as a substring.  The stored fields are not case-folded. -/
def Pin.contains (p : Pin) (q : String) : Bool :=
  containsSub p.url q || containsSub p.title q || containsSub p.tags q

/-- `Pin::set_tags` from `src/lib.rs`: replaces only `tag_list`. -/
def Pin.set_tags (p : Pin) (tags : List String) : Pin :=
  { p with tag_list := tags }

/-- `Pin::set_tags_str` from `src/lib.rs`: clones the string slices into
`tag_list`; in the model the clone is the identity. -/
def Pin.set_tags_str (p : Pin) (tags : List String) : Pin :=
  { p with tag_list := tags.map (fun s => s) }

/-- Modelled from the spec: the Tag record (`src/pinboard/pin.rs` is not
among the sources).  A tag is a name with a usage frequency; the search
code accesses the two components positionally (`item.0`, `item.1`), so
the model mirrors a tuple struct. -/
structure Tag where
  fst : String
  snd : Nat
deriving Repr, DecidableEq

/-- Modelled from the spec: `Tag::new(name, freq)` as used by
`Api::tags_frequency`. -/
def Tag.new (name : String) (freq : Nat) : Tag :=
  ⟨name, freq⟩

/-! ## Snapshot store serialization

`Pinboard::update_cache` serializes `Vec<Pin>` / `Vec<Tag>` with
MessagePack (`rmps`), a self-describing encoding that round-trips every
field that serde emits.  `Pin.tag_list` carries `#[serde(skip)]`
(`src/lib.rs` line 28), so it is neither written nor read back: on
deserialization it takes its `Default` value, the empty list.  The model
captures the encoding at the level of the serialized record. -/

/-- The wire form of a `Pin`: exactly the serde-visible fields of
`struct Pin` (`tag_list` is `#[serde(skip)]` and therefore absent). -/
structure SerPin where
  url : String
  title : String
  tags : String
  shared : String
  toread : String
  extended : Option String
  time : Nat
  meta : Option String
  hash : Option String
deriving Repr, DecidableEq

/-- Serialization of one pin: emit every serde-visible field. -/
def serializePin (p : Pin) : SerPin :=
  { url := p.url, title := p.title, tags := p.tags, shared := p.shared
    toread := p.toread, extended := p.extended, time := p.time
    meta := p.meta, hash := p.hash }

/-- Deserialization of one pin: the skipped `tag_list` becomes
`Default::default()`, i.e. the empty list. -/
def deserializePin (s : SerPin) : Pin :=
  { url := s.url, title := s.title, tags := s.tags, shared := s.shared
    toread := s.toread, extended := s.extended, time := s.time
    meta := s.meta, hash := s.hash, tag_list := [] }

/-- Storing the bookmark collection (`pins.serialize(...)`). -/
def storePins (pins : List Pin) : List SerPin :=
  pins.map serializePin

/-- Loading the bookmark collection back from its wire form. -/
def loadPins (s : List SerPin) : List Pin :=
  s.map deserializePin

/-- Modelled from the spec: `Tag` has no skipped fields, so its wire
form is the record itself (`tags_tuple.serialize(...)`). -/
def storeTags (tags : List Tag) : List Tag :=
  tags

/-- Loading the tag collection back from its wire form. -/
def loadTags (s : List Tag) : List Tag :=
  s

/-! ## API result normalization (`src/pinboard/api.rs`) -/

/-- `struct ApiResult` from `src/pinboard/api.rs`: the two
differently-named success/error fields; `#[serde(default)]` makes a
missing field decode to the empty string. -/
structure ApiResult where
  result_code : String
  result : String
deriving Repr, DecidableEq

/-- `ApiResult::ok` from `src/pinboard/api.rs`: success iff either
field equals `"done"`; otherwise `bail!` with `result_code` when it is
non-empty, else with `result`. -/
def ApiResult.ok (r : ApiResult) : Except String Unit :=
  if r.result_code = "done" ∨ r.result = "done" then
    Except.ok ()
  else if r.result_code ≠ "" then
    Except.error r.result_code
  else
    Except.error r.result

/-! ## JSON values and the suggest-tags / tags-frequency decoders -/

/-- A JSON value, as produced by `serde_json` once a response body has
been parsed (`serde_json::Value`). -/
inductive Json where
  | null : Json
  | bool : Bool → Json
  | num : Int → Json
  | str : String → Json
  | arr : List Json → Json
  | obj : List (String × Json) → Json

/-- `serde_json` indexing `value[key]`: on an object, the value bound to
the key; on anything else, or a missing key, `Null`. -/
def jGet (j : Json) (k : String) : Json :=
  match j with
  | Json.obj fields => ((fields.find? (fun kv => kv.fst = k)).map Prod.snd).getD Json.null
  | _ => Json.null

/-- `Value::is_null`. -/
def Json.isNull : Json → Bool
  | Json.null => true
  | _ => false

/-- `Value::as_array`. -/
def Json.asArr : Json → Option (List Json)
  | Json.arr xs => some xs
  | _ => none

/-- `Value::as_str`. -/
def Json.asStr : Json → Option String
  | Json.str s => some s
  | _ => none

/-- `enum ApiError` from `src/pinboard/api.rs` (the payload is the
formatted message). -/
inductive ApiError where
  | urlError : String → ApiError
  | unrecognizedResponse : String → ApiError
  | serverError : String → ApiError
  | network : String → ApiError
  | serdeError : String → ApiError
deriving Repr, DecidableEq

/-- `Api::suggest_tags` from `src/pinboard/api.rs`, applied to the
decoded response array: find the first entry whose `"popular"` value is
non-null; on such an entry, read the value as an array (defaulting to
the one-element array `[ [] ]` when it is not one, per
`unwrap_or(&vec![json!([])])`) and turn each element into a string via
`as_str().unwrap_or("")`; absence of any such entry is an
unrecognized-response error. -/
def suggest_tags (items : List Json) : Except ApiError (List String) :=
  match items.find? (fun it => !(jGet it "popular").isNull) with
  | some it =>
      Except.ok ((((jGet it "popular").asArr).getD [Json.arr []]).map
        (fun v => (v.asStr).getD ""))
  | none =>
      Except.error (ApiError.unrecognizedResponse
        "Unrecognized response from API: posts/suggest")

/-- Decoding `serde_json::from_str::<HashMap<String, usize>>`: succeeds
exactly on a JSON object all of whose values are non-negative integers.
The hash map's (unspecified) iteration order is modelled as field
order; no claim depends on the order. -/
def decodeTagMap (j : Json) : Option (List (String × Nat)) :=
  match j with
  | Json.obj fields =>
      fields.mapM (fun kv =>
        match kv.snd with
        | Json.num n => if 0 ≤ n then some (kv.fst, n.toNat) else none
        | _ => none)
  | _ => none

/-- Decoding `serde_json::from_str::<Vec<HashMap<String, String>>>`:
succeeds exactly on a JSON array of objects with string values. -/
def decodeTagList (j : Json) : Option (List (List (String × String))) :=
  match j with
  | Json.arr items =>
      items.mapM (fun it =>
        match it with
        | Json.obj fields =>
            fields.mapM (fun kv =>
              match kv.snd with
              | Json.str s => some (kv.fst, s)
              | _ => none)
        | _ => none)
  | _ => none

/-- The observable outcome of a call that may, besides returning, panic
(Rust `assert!`): `panic` is a process-terminating fault, distinct from
the recoverable `error`. -/
inductive Outcome (α : Type) where
  | ok : α → Outcome α
  | error : String → Outcome α
  | panic : String → Outcome α
deriving Repr, DecidableEq

/-- `Api::tags_frequency` from `src/pinboard/api.rs`, applied to the
parsed response body: first try the name→count mapping shape; on
failure fall back to `Vec<HashMap<String, String>>` (failing that, the
`?` propagates the serde error), then `assert!(raw_tags.is_empty())` —
a panic when the fallback list is non-empty — and return the empty
collection. -/
def tags_frequency (body : Json) : Outcome (List Tag) :=
  match decodeTagMap body with
  | some pairs => Outcome.ok (pairs.map (fun kv => Tag.new kv.fst kv.snd))
  | none =>
      match decodeTagList body with
      | none => Outcome.error "serde decode error"
      | some raw_tags =>
          if raw_tags.isEmpty then Outcome.ok []
          else Outcome.panic "assertion failed: raw_tags.is_empty()"

/-! ## On-disk cache state and the Pinboard orchestrator
(`src/pinboard/mod.rs`) -/

/-- Contents of one cache file.  `File::create` leaves a zero-byte file
(`empty`, which no MessagePack collection decodes from); `nil` is a
MessagePack nil (the `Option` deserialized in `get_cached_pins` /
`get_cached_tags` reads it as `None`); `arr xs` is the serialized
collection written by `update_cache`. -/
inductive FileData (α : Type) where
  | empty : FileData α
  | nil : FileData α
  | arr : List α → FileData α
deriving Repr, DecidableEq

/-- The two cache files of `Config` (`pins_cache_file`,
`tags_cache_file`); `none` means the file does not exist on disk. -/
structure FS where
  pinsFile : Option (FileData SerPin)
  tagsFile : Option (FileData Tag)
deriving Repr, DecidableEq

/-- The in-memory state of `struct Pinboard`: the lazily-loaded caches
(the `api` and `cfg` fields carry no claim-relevant state). -/
structure PinboardMem where
  cached_pins : Option (List Pin)
  cached_tags : Option (List Tag)
deriving Repr, DecidableEq

/-- `Pinboard::get_cached_pins`: if the in-memory cache is already
populated do nothing; otherwise `File::open` the pins cache file — a
missing file is an error (`NotFound` propagates via `map_err`/`?`) —
and deserialize an `Option<Vec<Pin>>` from it, a zero-byte file being a
decode error. -/
def getCachedPins (mem : PinboardMem) (fs : FS) : Except String PinboardMem :=
  match mem.cached_pins with
  | some _ => Except.ok mem
  | none =>
      match fs.pinsFile with
      | none => Except.error "entity not found"
      | some FileData.empty => Except.error "failed to read MessagePack data"
      | some FileData.nil => Except.ok { mem with cached_pins := none }
      | some (FileData.arr xs) =>
          Except.ok { mem with cached_pins := some (loadPins xs) }

/-- `Pinboard::get_cached_tags`: same shape as `get_cached_pins`, over
the tags cache file. -/
def getCachedTags (mem : PinboardMem) (fs : FS) : Except String PinboardMem :=
  match mem.cached_tags with
  | some _ => Except.ok mem
  | none =>
      match fs.tagsFile with
      | none => Except.error "entity not found"
      | some FileData.empty => Except.error "failed to read MessagePack data"
      | some FileData.nil => Except.ok { mem with cached_tags := none }
      | some (FileData.arr xs) =>
          Except.ok { mem with cached_tags := some (loadTags xs) }

/-- `Pinboard::new`: start from empty caches, then run
`get_cached_pins()?` and `get_cached_tags()?` (the `Config::new()` step
carries no claim-relevant state and is taken as given). -/
def pinboardNew (fs : FS) : Except String PinboardMem := do
  let mem0 : PinboardMem := { cached_pins := none, cached_tags := none }
  let mem1 ← getCachedPins mem0 fs
  getCachedTags mem1 fs

/-- One execution environment for `Pinboard::update_cache`: the result
of each remote fetch, and whether each file create/write syscall
succeeds.  (Serialization into an in-memory buffer cannot fail for
these types, so the `map_err` on `serialize` is not a reachable
branch.) -/
structure RemoteEnv where
  fetchPins : Except String (List Pin)
  fetchTags : Except String (List Tag)
  createPinsOk : Bool
  writePinsOk : Bool
  createTagsOk : Bool
  writeTagsOk : Bool
deriving Repr, DecidableEq

/-- `Pinboard::update_cache` (`&self`, so the in-memory caches pass
through untouched): `File::create` the pins cache file (truncating it
to zero bytes), fetch and serialize all pins, write them; then the same
for tags.  Any failure returns early with `?`, leaving whatever the
earlier steps did to the disk.  A failed `write_all` is modelled as
leaving the truncated file (a partial write would equally fail to
decode). -/
def updateCache (mem : PinboardMem) (fs : FS) (env : RemoteEnv) :
    Except String Unit × PinboardMem × FS :=
  if env.createPinsOk = false then
    (Except.error "create failed", mem, fs)
  else
    let fs1 : FS := { fs with pinsFile := some FileData.empty }
    match env.fetchPins with
    | Except.error e => (Except.error e, mem, fs1)
    | Except.ok pins =>
        if env.writePinsOk = false then
          (Except.error "write failed", mem, fs1)
        else
          let fs2 : FS := { fs1 with pinsFile := some (FileData.arr (storePins pins)) }
          if env.createTagsOk = false then
            (Except.error "create failed", mem, fs2)
          else
            let fs3 : FS := { fs2 with tagsFile := some FileData.empty }
            match env.fetchTags with
            | Except.error e => (Except.error e, mem, fs3)
            | Except.ok tags =>
                if env.writeTagsOk = false then
                  (Except.error "write failed", mem, fs3)
                else
                  (Except.ok (), mem, { fs3 with tagsFile := some (FileData.arr (storeTags tags)) })

/-! ## Fuzzy pattern construction and matching

`search_items` / `search_tag_field` build the pattern
`"(?i)" ++ (query characters joined by ".*")` and hand it to
`Regex::new` / `is_match` from the `regex` crate.  The crate is
external, so its semantics is modelled for the family of patterns the
builder emits when every query character is either an ordinary literal
character or `'.'`: case-insensitive matching, `.` matching any
character except `'\n'`, `.*` between consecutive query characters, and
an unanchored overall match.  Queries containing any other
pattern-special character are outside the model ( `regexFragment` is
`false` on them and the model reports the pattern-compilation error of
the source's `map_err`); every theorem instantiates the fuzzy path
inside the fragment only. -/

/-- Characters with special meaning to the `regex` crate's parser. -/
def regexMeta : List Char :=
  ['\\', '.', '+', '*', '?', '(', ')', '|', '[', ']', '^', '$', '-', '&', '~', '#']

/-- The modelled query fragment: every character is an ordinary literal
or `'.'`.  Patterns built from such queries always compile. -/
def regexFragment (q : String) : Bool :=
  q.data.all (fun c => c = '.' || !(regexMeta.contains c))

/-- One emitted pattern atom against one haystack character, under
`(?i)`: the query character `'.'` (inserted unescaped) matches any
character but `'\n'`; any other character matches case-insensitively. -/
def atomMatches (c h : Char) : Bool :=
  if c = '.' then decide (h ≠ Char.ofNat 10)
  else lowerChar h = lowerChar c

/-- Unanchored match of the emitted pattern `c₁.*c₂.*…` against a
haystack.  `first = true` while no atom has been consumed yet (the
unanchored start may skip anything); afterwards skipping goes through
`.*`, which does not match `'\n'`. -/
def fuzzyMatch : Bool → List Char → List Char → Bool
  | _, [], _ => true
  | _, _ :: _, [] => false
  | first, c :: cs, h :: hs =>
      (atomMatches c h && fuzzyMatch false cs hs)
      || ((first || decide (h ≠ Char.ofNat 10)) && fuzzyMatch first (c :: cs) hs)

/-- Modelled from the spec: `Pin::contains_fuzzy`
(`src/pinboard/pin.rs` is not among the sources).  Per §4.3 a bookmark
is matched on its URL, title, or tag text; `contains_fuzzy` applies the
compiled pattern to those fields the way `contains` applies substring
search. -/
def Pin.contains_fuzzy (p : Pin) (q : String) : Bool :=
  fuzzyMatch true q.data p.url.data
  || fuzzyMatch true q.data p.title.data
  || fuzzyMatch true q.data p.tags.data

/-- `Pinboard::search_items` from `src/pinboard/mod.rs`: error when the
pins cache file does not exist; otherwise load the cache if needed;
`None` when nothing is cached; in exact mode lowercase the query and
filter with `Pin::contains`; in fuzzy mode build the `.*`-joined
pattern (compilation failure is the recoverable error
`"Can't search for given query!"`) and filter with
`Pin::contains_fuzzy`; zero matches yield `None`.  The filtering part
of the body (after the cache has been loaded) is factored into
`searchItemsCore`. -/
def searchItemsCore (mem1 : PinboardMem) (pins : List Pin) (fuzzy : Bool) (q : String) :
    Except String (PinboardMem × Option (List Pin)) :=
  if fuzzy = false then
    let r := pins.filter (fun p => p.contains (lowerStr q))
    Except.ok (mem1, if r.length = 0 then none else some r)
  else
    if regexFragment q then
      let r := pins.filter (fun p => p.contains_fuzzy q)
      Except.ok (mem1, if r.length = 0 then none else some r)
    else
      Except.error "Can't search for given query!"

/-- `Pinboard::search_items`, outer part: the cache-file existence
check and lazy load around `searchItemsCore`. -/
def searchItems (mem : PinboardMem) (fs : FS) (fuzzy : Bool) (q : String) :
    Except String (PinboardMem × Option (List Pin)) :=
  if (fs.pinsFile).isSome then
    match getCachedPins mem fs with
    | Except.error e => Except.error e
    | Except.ok mem1 =>
        match mem1.cached_pins with
        | none => Except.ok (mem1, none)
        | some pins => searchItemsCore mem1 pins fuzzy q
  else
    Except.error "pins cache file not present"

/-- `Pinboard::search_tag_field` from `src/pinboard/mod.rs`: same shape
over the tags cache; in exact mode a tag matches when its lowercased
name contains the lowercased query; in fuzzy mode `re.captures(&item.0)`
succeeds exactly when the pattern matches the name.  The filtering part
is factored into `searchTagFieldCore`. -/
def searchTagFieldCore (mem1 : PinboardMem) (tags : List Tag) (fuzzy : Bool) (q : String) :
    Except String (PinboardMem × Option (List Tag)) :=
  if fuzzy = false then
    let r := tags.filter (fun t => containsSub (lowerStr t.fst) (lowerStr q))
    Except.ok (mem1, if r.length = 0 then none else some r)
  else
    if regexFragment q then
      let r := tags.filter (fun t => fuzzyMatch true q.data t.fst.data)
      Except.ok (mem1, if r.length = 0 then none else some r)
    else
      Except.error "Can't search for given query!"

/-- `Pinboard::search_tag_field`, outer part: the cache-file existence
check and lazy load around `searchTagFieldCore`. -/
def searchTagField (mem : PinboardMem) (fs : FS) (fuzzy : Bool) (q : String) :
    Except String (PinboardMem × Option (List Tag)) :=
  if (fs.tagsFile).isSome then
    match getCachedTags mem fs with
    | Except.error e => Except.error e
    | Except.ok mem1 =>
        match mem1.cached_tags with
        | none => Except.ok (mem1, none)
        | some tags => searchTagFieldCore mem1 tags fuzzy q
  else
    Except.error "tags cache file not present"

/-- The claim's exact-mode bookmark predicate, following the spec's
words: the case-folded URL, title, or tag text contains the case-folded
query as a substring (both sides folded). -/
def specPinMatch (q : String) (p : Pin) : Bool :=
  containsSub (lowerStr p.url) (lowerStr q)
  || containsSub (lowerStr p.title) (lowerStr q)
  || containsSub (lowerStr p.tags) (lowerStr q)

/-! ## Theorems settling the claims -/

/-- C1: a decoded mutation-endpoint response succeeds iff either the
`result_code` field or the `result` field equals the literal `"done"`;
otherwise it fails, and the error surfaced to the caller is the
`result_code` field whenever that field is non-empty (so `result_code`
is preferred when both fields are non-empty), and the `result` field
when `result_code` is empty. -/
theorem apiResult_normalization (r : ApiResult) :
    (ApiResult.ok r = Except.ok () ↔ (r.result_code = "done" ∨ r.result = "done")) ∧
    (r.result_code ≠ "done" → r.result ≠ "done" → r.result_code ≠ "" →
      ApiResult.ok r = Except.error r.result_code) ∧
    (r.result_code ≠ "done" → r.result ≠ "done" → r.result_code = "" →
      ApiResult.ok r = Except.error r.result) := by
  unfold ApiResult.ok
  refine ⟨?_, ?_, ?_⟩ <;> split_ifs <;> simp_all <;> tauto

/-- Witness for C1 at concrete inputs: `{"result_code":"done"}` is a
success, `{"result_code":"item not found"}` fails with that literal
message, and `{"result":"rename to null"}` (empty `result_code`) fails
with the `result` field. -/
theorem apiResult_normalization_witness :
    ApiResult.ok ⟨"done", ""⟩ = Except.ok () ∧
    ApiResult.ok ⟨"item not found", ""⟩ = Except.error "item not found" ∧
    ApiResult.ok ⟨"", "rename to null"⟩ = Except.error "rename to null" :=
  ⟨(apiResult_normalization ⟨"done", ""⟩).1.mpr (Or.inl rfl),
   (apiResult_normalization ⟨"item not found", ""⟩).2.1
     (by decide) (by decide) (by decide),
   (apiResult_normalization ⟨"", "rename to null"⟩).2.2
     (by decide) (by decide) rfl⟩

/-- C2 (code bug): the tag-frequency decoder does try the mapping shape
first, and both the empty mapping `{}` and the empty list `[]` decode
to the empty tag collection — but when the mapping shape fails and the
fallback list is non-empty (here the body `[{"a":"b"}]`), the code hits
`assert!(raw_tags.is_empty())` and panics instead of returning a
recoverable, typed decode error. -/
theorem tags_frequency_panics_on_nonempty_list :
    tags_frequency (Json.obj []) = Outcome.ok [] ∧
    tags_frequency (Json.arr []) = Outcome.ok [] ∧
    tags_frequency (Json.obj [("t", Json.num 3)]) = Outcome.ok [Tag.new "t" 3] ∧
    tags_frequency (Json.arr [Json.obj [("a", Json.str "b")]])
      = Outcome.panic "assertion failed: raw_tags.is_empty()" :=
  ⟨rfl, rfl, rfl, rfl⟩

/-- C3 (code bug): loading the snapshot when a cache file is absent is
an error in this code, not a "no snapshot yet" state: `File::open`'s
`NotFound` propagates out of `get_cached_pins`, so constructing the
`Pinboard` before any synchronization has run fails; the constructor
only succeeds once both cache files exist. -/
theorem missing_cache_file_is_error :
    getCachedPins ⟨none, none⟩ ⟨none, none⟩ = Except.error "entity not found" ∧
    pinboardNew ⟨none, none⟩ = Except.error "entity not found" ∧
    pinboardNew ⟨some (FileData.arr []), none⟩ = Except.error "entity not found" ∧
    pinboardNew ⟨some (FileData.arr []), some (FileData.arr [])⟩
      = Except.ok ⟨some [], some []⟩ :=
  ⟨rfl, rfl, rfl, rfl⟩

/-- C5 (counterexample): store-then-load is not the identity — a pin
whose parsed tag list is `["a"]` comes back with an empty tag list,
because `tag_list` is `#[serde(skip)]`. -/
theorem snapshot_roundtrip_counterexample :
    loadPins (storePins [Pin.new "https://example.com" "t" ["a"] false false none 0])
      ≠ [Pin.new "https://example.com" "t" ["a"] false false none 0] := by
  decide

/-- C5 (amended): storing and re-loading a Bookmark collection
reproduces every serialized field of every record, but each bookmark's
parsed tag list is skipped by the encoder and reloads as the empty
list; the Tag collection round-trips identically.  Hence the round
trip is the identity exactly on collections whose pins all carry an
empty parsed tag list. -/
theorem snapshot_roundtrip_amended (pins : List Pin) (tags : List Tag) :
    loadPins (storePins pins) = pins.map (fun p => { p with tag_list := [] }) ∧
    loadTags (storeTags tags) = tags := by
  refine ⟨?_, rfl⟩
  simp only [loadPins, storePins, List.map_map]
  rfl

/-- `find?` over the suggest-tags scan predicate returns the first
entry whose `"popular"` value is non-null. -/
lemma find?_popular_append (pre : List Json) (it : Json) (post : List Json)
    (hpre : ∀ x ∈ pre, (jGet x "popular").isNull = true)
    (hit : (jGet it "popular").isNull = false) :
    (pre ++ it :: post).find? (fun x => !(jGet x "popular").isNull) = some it := by
  induction pre with
  | nil => simp [List.find?, hit]
  | cons x xs ih =>
      have hx := hpre x (by simp)
      simp only [List.cons_append, List.find?, hx, Bool.not_true]
      exact ih (fun y hy => hpre y (by simp [hy]))

/-- C8: for every suggest-tags response list, the operation returns the
string array of the `"popular"` field of the first entry whose
`"popular"` value is non-null, in original order; and when no entry in
the list exposes a non-null `"popular"` field it returns the
unrecognized-response error rather than an empty result. -/
theorem suggest_tags_first_popular :
    (∀ (pre : List Json) (it : Json) (post : List Json) (ss : List String),
        (∀ x ∈ pre, (jGet x "popular").isNull = true) →
        jGet it "popular" = Json.arr (ss.map Json.str) →
        suggest_tags (pre ++ it :: post) = Except.ok ss) ∧
    (∀ items : List Json,
        (∀ x ∈ items, (jGet x "popular").isNull = true) →
        suggest_tags items
          = Except.error (ApiError.unrecognizedResponse
              "Unrecognized response from API: posts/suggest")) := by
  constructor
  · intro pre it post ss hpre hit
    have hnn : (jGet it "popular").isNull = false := by rw [hit]; rfl
    unfold suggest_tags
    rw [find?_popular_append pre it post hpre hnn]
    dsimp only
    rw [hit]
    dsimp only [Json.asArr, Option.getD]
    rw [List.map_map]
    exact congrArg Except.ok (List.map_id ss)
  · intro items h
    have hnone : items.find? (fun x => !(jGet x "popular").isNull) = none := by
      rw [List.find?_eq_none]
      intro x hx
      simp [h x hx]
    unfold suggest_tags
    rw [hnone]

/-- Witness for C8 at the spec's example: the list
`[{"other":1}, {"popular":["a","b"]}]` yields `["a","b"]`. -/
theorem suggest_tags_witness :
    suggest_tags [Json.obj [("other", Json.num 1)],
      Json.obj [("popular", Json.arr [Json.str "a", Json.str "b"])]]
      = Except.ok ["a", "b"] := by
  have h := suggest_tags_first_popular.1 [Json.obj [("other", Json.num 1)]]
      (Json.obj [("popular", Json.arr [Json.str "a", Json.str "b"])]) [] ["a", "b"]
      (by intro x hx; simp at hx; subst hx; rfl) rfl
  exact h

/-- C9 (counterexample): `Pin::new` with tag list `["a"]` produces a
pin whose space-delimited tag text is `""`, not `"a"`: the tag text and
the parsed tag list are not kept consistent. -/
theorem pin_tag_text_counterexample :
    (Pin.new "https://example.com" "t" ["a"] false false none 0).tags
      ≠ String.intercalate " "
          (Pin.new "https://example.com" "t" ["a"] false false none 0).tag_list := by
  decide

/-- C9 (amended): `Pin::new` stores the given tags only in the parsed
tag list and always initializes the tag text to the empty string, and
`set_tags` / `set_tags_str` replace only the parsed tag list, leaving
the tag text unchanged; so the tag text agrees with the joined tag
list only when the joined list is empty. -/
theorem pin_tag_setters_leave_tag_text (url title : String) (tags : List String)
    (pv rd : Bool) (d : Option String) (n : Nat) (p : Pin) (l : List String) :
    (Pin.new url title tags pv rd d n).tags = "" ∧
    (Pin.new url title tags pv rd d n).tag_list = tags ∧
    (Pin.set_tags p l).tags = p.tags ∧
    (Pin.set_tags p l).tag_list = l ∧
    (Pin.set_tags_str p l).tags = p.tags ∧
    (Pin.set_tags_str p l).tag_list = l := by
  refine ⟨rfl, rfl, rfl, rfl, rfl, ?_⟩
  simp [Pin.set_tags_str]

/-- C7 (counterexample): exact-mode matching is not case-insensitive on
the stored-text side.  For the pin titled `"A"` and the query `"A"`,
the spec's both-sides-folded predicate matches, but the code lowercases
only the query and compares it against the raw fields, so the search
pipeline returns no result. -/
theorem exact_search_counterexample :
    specPinMatch "A" ⟨"u", "A", "", "yes", "no", none, 0, none, none, []⟩ = true ∧
    Pin.contains ⟨"u", "A", "", "yes", "no", none, 0, none, none, []⟩ (lowerStr "A")
      = false ∧
    searchItems ⟨some [⟨"u", "A", "", "yes", "no", none, 0, none, none, []⟩], none⟩
        ⟨some (FileData.arr []), none⟩ false "A"
      = Except.ok
          (⟨some [⟨"u", "A", "", "yes", "no", none, 0, none, none, []⟩], none⟩, none) := by
  decide

/-- C7 (amended): in exact mode only the query is case-folded.  Queries
equal up to case therefore give identical results for both bookmark and
tag search; tag matching additionally folds the stored name, so a tag's
name matters only up to case; but a bookmark is matched by raw
substring containment of the folded query in its unfolded URL, title,
or tag text, so bookmark matching stays case-sensitive on the
stored-text side. -/
theorem exact_search_amended :
    (∀ (mem : PinboardMem) (fs : FS) (q q' : String), lowerStr q = lowerStr q' →
        searchItems mem fs false q = searchItems mem fs false q' ∧
        searchTagField mem fs false q = searchTagField mem fs false q') ∧
    (∀ (q : String) (t u : Tag), lowerStr t.fst = lowerStr u.fst →
        containsSub (lowerStr t.fst) (lowerStr q)
          = containsSub (lowerStr u.fst) (lowerStr q)) ∧
    (∀ (q : String) (pins : List Pin) (p : Pin),
        p ∈ pins.filter (fun x => x.contains (lowerStr q)) ↔
          p ∈ pins ∧ (containsSub p.url (lowerStr q) || containsSub p.title (lowerStr q)
            || containsSub p.tags (lowerStr q)) = true) := by
  refine ⟨?_, ?_, ?_⟩
  · intro mem fs q q' h
    constructor
    · simp only [searchItems, searchItemsCore, h, if_true]
    · simp only [searchTagField, searchTagFieldCore, h, if_true]
  · intro q t u h
    rw [h]
  · intro q pins p
    simp [List.mem_filter, Pin.contains]

/-- Witness for C7 (amended) at concrete inputs: searching `"A"` and
`"a"` over a loaded snapshot gives the same answer. -/
theorem exact_search_amended_witness :
    searchItems ⟨some [⟨"u", "A", "", "yes", "no", none, 0, none, none, []⟩], none⟩
        ⟨some (FileData.arr []), none⟩ false "A"
      = searchItems ⟨some [⟨"u", "A", "", "yes", "no", none, 0, none, none, []⟩], none⟩
        ⟨some (FileData.arr []), none⟩ false "a" :=
  (exact_search_amended.1
    ⟨some [⟨"u", "A", "", "yes", "no", none, 0, none, none, []⟩], none⟩
    ⟨some (FileData.arr []), none⟩ "A" "a" (by decide)).1

/-- C6 (code bug): the fuzzy pattern builder inserts query characters
into the pattern unescaped, so a pattern-special character keeps its
special meaning instead of matching only literally.  The query `"."`
(pattern `"(?i)."`) matches the pin `{url := "u", title := "x"}` even
though no field of the pin contains a literal `'.'`. -/
theorem fuzzy_query_not_escaped :
    searchItems ⟨some [⟨"u", "x", "", "yes", "no", none, 0, none, none, []⟩], none⟩
        ⟨some (FileData.arr []), none⟩ true "."
      = Except.ok
          (⟨some [⟨"u", "x", "", "yes", "no", none, 0, none, none, []⟩], none⟩,
           some [⟨"u", "x", "", "yes", "no", none, 0, none, none, []⟩]) ∧
    containsSub "u" "." = false ∧
    containsSub "x" "." = false ∧
    containsSub "" "." = false := by
  decide

/-- C4 (counterexample): full synchronization is not transactional.
Starting from a consistent on-disk snapshot, an execution whose
bookmark fetch fails (after `File::create` has already truncated the
pins cache file) ends with the pins file zero-length while the tags
file still holds the data of the older synchronization — the snapshot
is neither unchanged nor fully replaced. -/
theorem update_cache_mixed_state_counterexample :
    updateCache ⟨none, none⟩
        ⟨some (FileData.arr [serializePin (Pin.new "https://e.com" "t" [] false false none 0)]),
         some (FileData.arr [Tag.new "old" 1])⟩
        ⟨Except.error "network error", Except.ok [], true, true, true, true⟩
      = (Except.error "network error", ⟨none, none⟩,
         ⟨some FileData.empty, some (FileData.arr [Tag.new "old" 1])⟩) ∧
    some (FileData.empty : FileData SerPin)
      ≠ some (FileData.arr [serializePin (Pin.new "https://e.com" "t" [] false false none 0)]) := by
  decide

/-- C4 (amended): `update_cache` writes the two halves sequentially
with no transactional protection, truncating each file before writing
it: when the bookmark half fails after the truncating `File::create`,
the pins file is left zero-length while the tags file is untouched;
when the tag half fails, the pins file already holds the new data while
the tags file is zero-length; only when every step succeeds are both
files replaced by the new synchronization pass. -/
theorem update_cache_amended (mem : PinboardMem) (fs : FS) (env : RemoteEnv) :
    (∀ e, env.createPinsOk = true → env.fetchPins = Except.error e →
        updateCache mem fs env
          = (Except.error e, mem, { fs with pinsFile := some FileData.empty })) ∧
    (∀ pins e, env.createPinsOk = true → env.writePinsOk = true →
        env.createTagsOk = true →
        env.fetchPins = Except.ok pins → env.fetchTags = Except.error e →
        updateCache mem fs env
          = (Except.error e, mem,
             ⟨some (FileData.arr (storePins pins)), some FileData.empty⟩)) ∧
    (∀ pins tags, env.createPinsOk = true → env.writePinsOk = true →
        env.createTagsOk = true → env.writeTagsOk = true →
        env.fetchPins = Except.ok pins → env.fetchTags = Except.ok tags →
        updateCache mem fs env
          = (Except.ok (), mem,
             ⟨some (FileData.arr (storePins pins)),
              some (FileData.arr (storeTags tags))⟩)) := by
  refine ⟨?_, ?_, ?_⟩
  · intro e h1 h2
    simp [updateCache, h1, h2]
  · intro pins e h1 h2 h3 h4 h5
    simp [updateCache, h1, h2, h3, h4, h5]
  · intro pins tags h1 h2 h3 h4 h5 h6
    simp [updateCache, h1, h2, h3, h4, h5, h6]

/-- Witness for C4 (amended) at a concrete execution: a failed bookmark
fetch over an absent snapshot leaves a truncated pins file and no tags
file. -/
theorem update_cache_amended_witness :
    updateCache ⟨none, none⟩ ⟨none, none⟩
        ⟨Except.error "network error", Except.ok [], true, true, true, true⟩
      = (Except.error "network error", ⟨none, none⟩, ⟨some FileData.empty, none⟩) :=
  (update_cache_amended ⟨none, none⟩ ⟨none, none⟩
    ⟨Except.error "network error", Except.ok [], true, true, true, true⟩).1
    "network error" rfl rfl

/-- When the in-memory pin cache is already populated and the pins
cache file exists, `search_items` ignores the file contents entirely
and filters the cached collection. -/
lemma searchItems_loaded (mem : PinboardMem) (fs : FS) (pins : List Pin)
    (mode : Bool) (q : String) (h : mem.cached_pins = some pins)
    (hf : (fs.pinsFile).isSome = true) :
    searchItems mem fs mode q = searchItemsCore mem pins mode q := by
  simp [searchItems, getCachedPins, h, hf]

/-- When the in-memory tag cache is already populated and the tags
cache file exists, `search_tag_field` ignores the file contents
entirely and filters the cached collection. -/
lemma searchTagField_loaded (mem : PinboardMem) (fs : FS) (tags : List Tag)
    (mode : Bool) (q : String) (h : mem.cached_tags = some tags)
    (hf : (fs.tagsFile).isSome = true) :
    searchTagField mem fs mode q = searchTagFieldCore mem tags mode q := by
  simp [searchTagField, getCachedTags, h, hf]

/-- `update_cache` passes the in-memory state through untouched, and on
success leaves both cache files holding serialized collections. -/
lemma updateCache_shape (mem : PinboardMem) (fs : FS) (env : RemoteEnv) :
    (updateCache mem fs env).2.1 = mem ∧
    ((updateCache mem fs env).1 = Except.ok () →
      ∃ ps ts, (updateCache mem fs env).2.2
        = ⟨some (FileData.arr ps), some (FileData.arr ts)⟩) := by
  by_cases h1 : env.createPinsOk = false
  · simp [updateCache, h1]
  · rcases hp : env.fetchPins with e | pins
    · simp [updateCache, h1, hp]
    · by_cases h2 : env.writePinsOk = false
      · simp [updateCache, h1, hp, h2]
      · by_cases h3 : env.createTagsOk = false
        · simp [updateCache, h1, hp, h2, h3]
        · rcases ht : env.fetchTags with e | tags
          · simp [updateCache, h1, hp, h2, h3, ht]
          · by_cases h4 : env.writeTagsOk = false
            · simp [updateCache, h1, hp, h2, h3, ht, h4]
            · refine ⟨by simp [updateCache, h1, hp, h2, h3, ht, h4], fun _ => ?_⟩
              exact ⟨storePins pins, storeTags tags,
                by simp [updateCache, h1, hp, h2, h3, ht, h4]⟩

/-- C10: a run of `update_cache` never modifies the in-memory cached
collections (`&self`), and after a successful run, searches over a
Pinboard whose pin (resp. tag) collection was already loaded return
exactly what they returned before the synchronization: the results
still come from the previously loaded snapshot, not from the newly
written files. -/
theorem update_cache_frame (mem : PinboardMem) (fs : FS) (env : RemoteEnv)
    (mode : Bool) (q : String) (pins : List Pin) (tags : List Tag) :
    (updateCache mem fs env).2.1 = mem ∧
    ((updateCache mem fs env).1 = Except.ok () → mem.cached_pins = some pins →
      (fs.pinsFile).isSome = true →
      searchItems mem (updateCache mem fs env).2.2 mode q
        = searchItems mem fs mode q) ∧
    ((updateCache mem fs env).1 = Except.ok () → mem.cached_tags = some tags →
      (fs.tagsFile).isSome = true →
      searchTagField mem (updateCache mem fs env).2.2 mode q
        = searchTagField mem fs mode q) := by
  obtain ⟨hm, hs⟩ := updateCache_shape mem fs env
  refine ⟨hm, ?_, ?_⟩
  · intro hok hp hf
    obtain ⟨ps, ts, hfs⟩ := hs hok
    rw [hfs,
      searchItems_loaded mem ⟨some (FileData.arr ps), some (FileData.arr ts)⟩
        pins mode q hp rfl,
      searchItems_loaded mem fs pins mode q hp hf]
  · intro hok ht hf
    obtain ⟨ps, ts, hfs⟩ := hs hok
    rw [hfs,
      searchTagField_loaded mem ⟨some (FileData.arr ps), some (FileData.arr ts)⟩
        tags mode q ht rfl,
      searchTagField_loaded mem fs tags mode q ht hf]

/-- Witness for C10 at a concrete run: a successful synchronization
over a loaded (empty) snapshot leaves the in-memory state unchanged and
a subsequent exact search unchanged. -/
theorem update_cache_frame_witness :
    (updateCache ⟨some [], some []⟩ ⟨some (FileData.arr []), some (FileData.arr [])⟩
        ⟨Except.ok [], Except.ok [], true, true, true, true⟩).2.1
      = ⟨some [], some []⟩ ∧
    searchItems ⟨some [], some []⟩
        (updateCache ⟨some [], some []⟩ ⟨some (FileData.arr []), some (FileData.arr [])⟩
          ⟨Except.ok [], Except.ok [], true, true, true, true⟩).2.2 false "a"
      = searchItems ⟨some [], some []⟩
          ⟨some (FileData.arr []), some (FileData.arr [])⟩ false "a" := by
  have h := update_cache_frame ⟨some [], some []⟩
    ⟨some (FileData.arr []), some (FileData.arr [])⟩
    ⟨Except.ok [], Except.ok [], true, true, true, true⟩ false "a" [] []
  exact ⟨h.1, h.2.1 rfl rfl rfl⟩

end RustyPin
